import Mathlib

/-!
Shallow embedding of the `csgo` client library (session state machine, job
correlation, GC message dispatch, shared-object cache, and the match
share-code codec), together with proofs of the specification's claims.

Machine integers are modelled as `Nat`/`Int` with explicit `% 2^w` where the
source wraps; fallible code returns `Option`; Python exceptions that escape a
handler are modelled by an explicit error flag.  Object identity (Python
reference identity, preserved by `CopyFrom`) is modelled by an `ident : Nat`
tag on each instance.
-/

/-- Value of a big-endian digit list: the head is the most significant digit.
Mirrors the accumulator loops `result = result * B + digit` in the source. -/
def valMSB (B : Nat) (l : List Nat) : Nat := l.foldl (fun a d => a * B + d) 0

/-- The `k` least-significant base-`B` digits of `n`, least significant first.
Mirrors the repeated `divmod` loops in the source. -/
def digitsLE (B : Nat) : Nat → Nat → List Nat
  | 0, _ => []
  | k + 1, n => (n % B) :: digitsLE B k (n / B)

namespace sharecode

/-- The 57-symbol alphabet from `csgo/sharecode.py` (`dictionary`). -/
def dictionary : List Char :=
  "ABCDEFGHJKLMNOPQRSTUVWXYZabcdefhijkmnopqrstuvwxyz23456789".data

/-- Length of the alphabet (`DICTIONARY_LENGTH` in the source); equals 57. -/
def DICTIONARY_LENGTH : Nat := dictionary.length

/-- Characters admitted by the character class of `CODE_PATTERN`.  The source
builds the regex as `[{%s}]` via string formatting, so the literal braces are
part of the class alongside the alphabet. -/
def isCodeChar (c : Char) : Bool := dictionary.contains c || c = '\x7b' || c = '\x7d'

/-- Matcher for `k` repetitions of `-` followed by five class characters,
anchored at the end of the string (the `(-[...]{5}){k}$` part of
`CODE_PATTERN`). -/
def groupsOk : Nat → List Char → Bool
  | 0, l => l.isEmpty
  | k + 1, '-' :: c1 :: c2 :: c3 :: c4 :: c5 :: rest =>
    isCodeChar c1 && isCodeChar c2 && isCodeChar c3 && isCodeChar c4 && isCodeChar c5 &&
      groupsOk k rest
  | _ + 1, _ => false

/-- Matcher for `CODE_PATTERN = CSGO(-[...]{5}){5}$` as used by `re.match`
(anchored at the start by `re.match`, at the end by `$`). -/
def codePatternMatch : List Char → Bool
  | 'C' :: 'S' :: 'G' :: 'O' :: rest => groupsOk 5 rest
  | _ => false

/-- The `_bitmask64` constant from the source. -/
def _bitmask64 : Nat := 2 ^ 64 - 1

/-- The `_swap_endianness` function: reverses the 18 bytes of a 144-bit value
(`for n in range(0, 144, 8): result = (result << 8) + ((number >> n) & 0xFF)`). -/
def _swap_endianness (number : Nat) : Nat :=
  (List.range 18).foldl (fun result i => (result <<< 8) + ((number >>> (8 * i)) &&& 0xFF)) 0

/-- Result of `decode`: the dict `{'matchid': _, 'outcomeid': _, 'token': _}`. -/
structure MatchInfo where
  matchid : Nat
  outcomeid : Nat
  token : Nat
deriving DecidableEq

/-- The `code.removeprefix('CSGO')` step of `decode`. -/
def stripCSGO : List Char → List Char
  | 'C' :: 'S' :: 'G' :: 'O' :: rest => rest
  | l => l

/-- The `decode` function from `csgo/sharecode.py`.  `none` models the
`ValueError` raised when the input does not match `CODE_PATTERN`. -/
def decode (code : String) : Option MatchInfo :=
  if codePatternMatch code.data then
    let cs := (stripCSGO code.data).filter (fun c => c != '-')
    let num0 := cs.reverse.foldl (fun a c => a * DICTIONARY_LENGTH + dictionary.indexOf c) 0
    let num := _swap_endianness num0
    some ⟨num &&& _bitmask64, (num >>> 64) &&& _bitmask64, (num >>> 128) &&& 0xFFFF⟩
  else
    none

/-- Indexing into the alphabet (`dictionary[r]`); the source only ever calls
this with `r < 57`, where the default is unreachable. -/
def dictChar (d : Nat) : Char := dictionary.getD d 'A'

/-- The 25 alphabet characters produced by the `divmod` loop of `encode`,
least significant digit first. -/
def encodeChars (num : Nat) : List Char := (digitsLE DICTIONARY_LENGTH 25 num).map dictChar

/-- Character list of the final share code produced by the f-string of
`encode`: the prefix `CSGO` followed by the five hyphen-separated slices
`code[:5]`, `code[5:10]`, `code[10:15]`, `code[15:20]`, `code[20:]`. -/
def assembled (code : List Char) : List Char :=
  'C' :: 'S' :: 'G' :: 'O' :: '-' :: (code.take 5 ++
    '-' :: ((code.drop 5).take 5 ++ '-' :: ((code.drop 10).take 5 ++
    '-' :: ((code.drop 15).take 5 ++ '-' :: code.drop 20))))

/-- The `encode` function from `csgo/sharecode.py`. -/
def encode (matchid outcomeid token : Nat) : String :=
  let num := _swap_endianness ((token <<< 128) ||| (outcomeid <<< 64) ||| matchid)
  let code := encodeChars num
  String.mk (assembled code)

end sharecode

namespace csgo

/-- The `ESOType` enum from `csgo/common_enums.py`. -/
inductive ESOType
  | CSOEconItem
  | CSOPersonaDataPublic
  | CSOItemRecipe
  | CSOEconGameAccountClient
  | CSOEconItemDropRateBonus
  | CSOEconItemEventTicket
  | CSOAccountSeasonalOperation
  | CSOEconDefaultEquippedDefinitionInstanceClient
  | CSOEconCoupon
  | CSOQuestProgress
deriving DecidableEq

/-- Numeric value of each `ESOType` member, as in `csgo/common_enums.py`. -/
def ESOType.value : ESOType → Int
  | .CSOEconItem => 1
  | .CSOPersonaDataPublic => 2
  | .CSOItemRecipe => 5
  | .CSOEconGameAccountClient => 7
  | .CSOEconItemDropRateBonus => 38
  | .CSOEconItemEventTicket => 40
  | .CSOAccountSeasonalOperation => 41
  | .CSOEconDefaultEquippedDefinitionInstanceClient => 43
  | .CSOEconCoupon => 45
  | .CSOQuestProgress => 46

/-- The `ESOType(key)` conversion: `none` models the `ValueError` raised for
an integer that is not a member value. -/
def ESOType.ofInt (n : Int) : Option ESOType :=
  if n = 1 then some .CSOEconItem
  else if n = 2 then some .CSOPersonaDataPublic
  else if n = 5 then some .CSOItemRecipe
  else if n = 7 then some .CSOEconGameAccountClient
  else if n = 38 then some .CSOEconItemDropRateBonus
  else if n = 40 then some .CSOEconItemEventTicket
  else if n = 41 then some .CSOAccountSeasonalOperation
  else if n = 43 then some .CSOEconDefaultEquippedDefinitionInstanceClient
  else if n = 45 then some .CSOEconCoupon
  else if n = 46 then some .CSOQuestProgress
  else none

/-- Field content of one decoded protobuf record: the value extracted from
its key field(s) (a tuple key is collapsed into one value), the remaining
payload, and the record's Python truthiness (`if current:`), all supplied by
the external protobuf library. -/
structure ObjContent where
  keyVal : Int
  payload : Int
  truthy : Bool
deriving DecidableEq

/-- One decoded object instance.  `ident` models Python reference identity:
`CopyFrom` keeps the `ident` of the stored instance and replaces only its
`content`. -/
structure Inst where
  ident : Nat
  content : ObjContent
deriving DecidableEq

/-- Result of `get_so_key_fields` on a resolved descriptor: the `NO_KEY`
sentinel or the (possibly empty) list of key field names. -/
inductive KeyFields
  | noKey
  | fieldList (names : List String)
deriving DecidableEq

/-- What `find_so_proto` plus `get_so_key_fields` yield for a type:
`missing` models `find_so_proto` returning `None`. -/
inductive ProtoInfo
  | missing
  | found (kf : KeyFields)
deriving DecidableEq

/-- Static proto/key-field information per type.  The generated proto modules
are external collaborators, so the embedding takes this table as a parameter. -/
def Schema : Type := ESOType → ProtoInfo

/-- The explicit entries of the `so_key_fields` override table in
`csgo/features/sharedobjects.py` (the non-commented ones).  All other types
are resolved by scanning generated proto descriptors that live outside the
repository, so they are left unresolved here. -/
def so_key_fields : Schema := fun t =>
  match t with
  | .CSOEconItem => .found (.fieldList ["id"])
  | .CSOEconGameAccountClient => .found .noKey
  | .CSOEconItemEventTicket => .found .noKey
  | .CSOPersonaDataPublic => .found .noKey
  | _ => .missing

/-- Association-list lookup, modelling Python dict lookup. -/
def lookupA {κ ν : Type} [DecidableEq κ] : List (κ × ν) → κ → Option ν
  | [], _ => none
  | (k, v) :: rest, key => if k = key then some v else lookupA rest key

/-- Python dict assignment `d[k] = v`: replaces the value at an existing key
in place (Python dicts keep insertion order), otherwise appends. -/
def setA {κ ν : Type} [DecidableEq κ] : List (κ × ν) → κ → ν → List (κ × ν)
  | [], key, v => [(key, v)]
  | (k, w) :: rest, key, v =>
    if k = key then (key, v) :: rest else (k, w) :: setA rest key v

/-- Python dict deletion (`d.pop(k, ...)` / `del d[k]`): drops the entry if
present. -/
def removeA {κ ν : Type} [DecidableEq κ] : List (κ × ν) → κ → List (κ × ν)
  | [], _ => []
  | (k, w) :: rest, key => if k = key then rest else (k, w) :: removeA rest key

/-- One cache container, the value stored at `self[type_id]` in `SOCache`:
either a dict from key to instance (possibly the lazily-created empty one) or
the bare instance a singleton type stores. -/
inductive Container
  | table (entries : List (Int × Inst))
  | single (inst : Inst)
deriving DecidableEq

/-- All instances stored in a container. -/
def Container.insts : Container → List Inst
  | .table entries => entries.map (fun e => e.2)
  | .single i => [i]

/-- Subscription record kept in `SOCache._caches` for one
`(owner_type, owner_id)`: the dict `{'version': _, 'type_ids': set()}`, the
set modelled as a duplicate-free list. -/
structure SubRec where
  version : Int
  typeIds : List Int
deriving DecidableEq

/-- State of a `SOCache`: the per-type containers (the dict part of `self`)
and the subscription records (`self._caches`). -/
structure SOCache where
  caches : List (ESOType × Container)
  subs : List ((Int × Int) × SubRec)
deriving DecidableEq

/-- Kinds of cache change events. -/
inductive EvKind
  | new
  | updated
  | removed
deriving DecidableEq

/-- One `self.emit((kind, type_id), obj)` call performed by a cache handler. -/
structure Event where
  kind : EvKind
  typeId : ESOType
  obj : Inst
deriving DecidableEq

/-- Result of running one cache handler: the new state, the emitted events in
order, and whether a Python exception escaped the handler after those
effects. -/
structure HResult where
  state : SOCache
  events : List Event
  err : Bool
deriving DecidableEq

/-- Typed access `self[type_id]` for an already-converted `ESOType` key:
lazily installs an empty dict on first read (`SOCache.__getitem__`). -/
def getContainer (s : SOCache) (t : ESOType) : SOCache × Container :=
  match lookupA s.caches t with
  | some c => (s, c)
  | none => (⟨setA s.caches t (.table []), s.subs⟩, .table [])

/-- The `SOCache.__getitem__` override: converts the key with `ESOType(key)`
(`none` models the `KeyError` raised on invalid values), then lazily inserts
an empty dict for a valid type seen for the first time. -/
def socache_getitem (s : SOCache) (key : Int) : Option (SOCache × Container) :=
  match ESOType.ofInt key with
  | none => none
  | some t => some (getContainer s t)

/-- The `SOCache._get_proto_for_type` / `_parse_object_data` pipeline: fails
(logged `None` in the source) when the type id is not a valid `ESOType`, when
no proto can be located, or when `get_so_key_fields` returns an empty (falsy)
field list; the `NO_KEY` sentinel itself is truthy.  On success returns the
converted type, the key from `get_key_for_object` (`none` = `NO_KEY`), and
the decoded object. -/
def _parse_object_data (σ : Schema) (typeId : Int) (od : Inst) :
    Option (ESOType × Option Int × Inst) :=
  match ESOType.ofInt typeId with
  | none => none
  | some t =>
    match σ t with
    | .missing => none
    | .found .noKey => some (t, none, od)
    | .found (.fieldList []) => none
    | .found (.fieldList (_ :: _)) => some (t, some od.content.keyVal, od)

/-- Outcome of `SOCache._update_object`. -/
inductive UpdResult
  | ok (typeId : ESOType) (obj : Inst)
  | skip
  | error
deriving DecidableEq

/-- The `SOCache._update_object` method: parse the object, then install it or
copy it into the already-stored instance (`CopyFrom`, preserving reference
identity).  `skip` is the source's early `return` on a parse failure; `error`
marks the container-shape mismatches where the Python code would raise (for
example `key in self[type_id]` with a message stored at that slot). -/
def _update_object (σ : Schema) (s : SOCache) (typeId : Int) (od : Inst) :
    SOCache × UpdResult :=
  match _parse_object_data σ typeId od with
  | none => (s, .skip)
  | some (t, key, obj) =>
    match key with
    | none =>
      let p := getContainer s t
      match p.2 with
      | .single i =>
        let stored : Inst := ⟨i.ident, obj.content⟩
        (⟨setA p.1.caches t (.single stored), p.1.subs⟩, .ok t stored)
      | .table _ =>
        (⟨setA p.1.caches t (.single obj), p.1.subs⟩, .ok t obj)
    | some k =>
      let p := getContainer s t
      match p.2 with
      | .single _ => (p.1, .error)
      | .table entries =>
        match lookupA entries k with
        | some i =>
          let stored : Inst := ⟨i.ident, obj.content⟩
          (⟨setA p.1.caches t (.table (setA entries k stored)), p.1.subs⟩, .ok t stored)
        | none =>
          (⟨setA p.1.caches t (.table (setA entries k obj)), p.1.subs⟩, .ok t obj)

/-- One `CMsgSOSingleObject` notification body: its `type_id` and the decoded
form of its `object_data` bytes. -/
structure SOSingleObject where
  type_id : Int
  object_data : Inst
deriving DecidableEq

/-- The `SOCache._handle_create` handler. -/
def _handle_create (σ : Schema) (s : SOCache) (m : SOSingleObject) : HResult :=
  match _update_object σ s m.type_id m.object_data with
  | (s1, .skip) => ⟨s1, [], false⟩
  | (s1, .error) => ⟨s1, [], true⟩
  | (s1, .ok t obj) => ⟨s1, [⟨.new, t, obj⟩], false⟩

/-- The `SOCache._handle_update` handler. -/
def _handle_update (σ : Schema) (s : SOCache) (m : SOSingleObject) : HResult :=
  match _update_object σ s m.type_id m.object_data with
  | (s1, .skip) => ⟨s1, [], false⟩
  | (s1, .error) => ⟨s1, [], true⟩
  | (s1, .ok t obj) => ⟨s1, [⟨.updated, t, obj⟩], false⟩

/-- The `SOCache._handle_destroy` handler: parse (for the key), pop the
stored entry, copy the decoded record into the popped instance when that
instance is truthy, and emit `removed` with `current or obj`. -/
def _handle_destroy (σ : Schema) (s : SOCache) (m : SOSingleObject) : HResult :=
  match _parse_object_data σ m.type_id m.object_data with
  | none => ⟨s, [], false⟩
  | some (t, key, obj) =>
    match key with
    | none =>
      let current := lookupA s.caches t
      let s1 : SOCache := ⟨removeA s.caches t, s.subs⟩
      match current with
      | none => ⟨s1, [⟨.removed, t, obj⟩], false⟩
      | some (.single i) =>
        if i.content.truthy then ⟨s1, [⟨.removed, t, ⟨i.ident, obj.content⟩⟩], false⟩
        else ⟨s1, [⟨.removed, t, obj⟩], false⟩
      | some (.table []) => ⟨s1, [⟨.removed, t, obj⟩], false⟩
      | some (.table (_ :: _)) => ⟨s1, [], true⟩
    | some k =>
      let p := getContainer s t
      match p.2 with
      | .single _ => ⟨p.1, [], true⟩
      | .table entries =>
        let current := lookupA entries k
        let s2 : SOCache := ⟨setA p.1.caches t (.table (removeA entries k)), p.1.subs⟩
        match current with
        | none => ⟨s2, [⟨.removed, t, obj⟩], false⟩
        | some i =>
          if i.content.truthy then ⟨s2, [⟨.removed, t, ⟨i.ident, obj.content⟩⟩], false⟩
          else ⟨s2, [⟨.removed, t, obj⟩], false⟩

/-- One per-type group inside `CMsgSOCacheSubscribed.objects`. -/
structure SOTypeGroup where
  type_id : Int
  object_data : List Inst
deriving DecidableEq

/-- A `CMsgSOCacheSubscribed` notification. -/
structure CacheSubscribedMsg where
  ownerType : Int
  ownerId : Int
  version : Int
  objects : List SOTypeGroup
deriving DecidableEq

/-- A `CMsgSOCacheUnsubscribed` notification (`owner_soid`). -/
structure CacheUnsubscribedMsg where
  ownerType : Int
  ownerId : Int
deriving DecidableEq

/-- Python `set.add`, on the duplicate-free list model. -/
def addTypeId (l : List Int) (x : Int) : List Int := if x ∈ l then l else l ++ [x]

/-- Python `set.update(iterable)`. -/
def addTypeIds (l : List Int) (xs : List Int) : List Int := xs.foldl addTypeId l

/-- Inner loop of `_handle_cache_subscribed` over one group's `object_data`:
each object is applied via `_update_object` and emitted as `new`; on the
first parse failure `break` abandons the rest of this group only. -/
def applyGroupObjects (σ : Schema) (typeId : Int) :
    List Inst → SOCache → SOCache × List Event × Bool
  | [], s => (s, [], false)
  | od :: rest, s =>
    match _update_object σ s typeId od with
    | (s1, .skip) => (s1, [], false)
    | (s1, .error) => (s1, [], true)
    | (s1, .ok t obj) =>
      let r := applyGroupObjects σ typeId rest s1
      (r.1, ⟨.new, t, obj⟩ :: r.2.1, r.2.2)

/-- Outer loop of `_handle_cache_subscribed` over the per-type groups.  An
escaped exception (error flag) aborts the remaining groups; a plain parse
failure does not. -/
def applyGroups (σ : Schema) : List SOTypeGroup → SOCache → SOCache × List Event × Bool
  | [], s => (s, [], false)
  | g :: gs, s =>
    let r1 := applyGroupObjects σ g.type_id g.object_data s
    if r1.2.2 then (r1.1, r1.2.1, true)
    else
      let r2 := applyGroups σ gs r1.1
      (r2.1, r1.2.1 ++ r2.2.1, r2.2.2)

/-- The `SOCache._handle_cache_subscribed` handler: create or merge the
subscription record (overwrite `version`, union `type_ids` over all groups),
then apply every bundled object as a Create. -/
def _handle_cache_subscribed (σ : Schema) (s : SOCache) (m : CacheSubscribedMsg) : HResult :=
  let ck := (m.ownerType, m.ownerId)
  let r0 : SubRec :=
    match lookupA s.subs ck with
    | some r => r
    | none => ⟨0, []⟩
  let r1 : SubRec := ⟨m.version, addTypeIds r0.typeIds (m.objects.map (fun g => g.type_id))⟩
  let s1 : SOCache := ⟨s.caches, setA s.subs ck r1⟩
  let r := applyGroups σ m.objects s1
  ⟨r.1, r.2.1, r.2.2⟩

/-- Eviction loop of `_handle_cache_unsubscribed` over the recorded type ids.
For a dict container every entry is popped and emitted as `removed`, then
`del self[type_id]` removes the (now empty) dict.  For a singleton container
`self.pop(type_id)` already removes the entry and emits it, after which
`del self[type_id]` raises `KeyError`: the error flag is set and the loop
aborts with the effects so far. -/
def evictTypes : List Int → SOCache → SOCache × List Event × Bool
  | [], s => (s, [], false)
  | tid :: rest, s =>
    match ESOType.ofInt tid with
    | none => evictTypes rest s
    | some t =>
      match lookupA s.caches t with
      | none => evictTypes rest s
      | some (.table entries) =>
        let evs := entries.map (fun e => Event.mk .removed t e.2)
        let r := evictTypes rest ⟨removeA s.caches t, s.subs⟩
        (r.1, evs ++ r.2.1, r.2.2)
      | some (.single i) =>
        (⟨removeA s.caches t, s.subs⟩, [⟨.removed, t, i⟩], true)

/-- The `SOCache._handle_cache_unsubscribed` handler: no-op when no
subscription record exists; otherwise evict every contained type and finally
delete the record (unless a `KeyError` escaped first). -/
def _handle_cache_unsubscribed (s : SOCache) (m : CacheUnsubscribedMsg) : HResult :=
  let ck := (m.ownerType, m.ownerId)
  match lookupA s.subs ck with
  | none => ⟨s, [], false⟩
  | some r =>
    let e := evictTypes r.typeIds s
    if e.2.2 then ⟨e.1, e.2.1, true⟩
    else ⟨⟨e.1.caches, removeA e.1.subs ck⟩, e.2.1, false⟩

/-- The `SOCache._handle_cleanup` handler (registered on the client's
`EVENT_READY`): clears every per-type container in place, then clears `self`
and `self._caches`. -/
def _handle_cleanup (_s : SOCache) : SOCache := ⟨[], []⟩

/-- The `GCConnectionStatus` enum (generated code outside the repository).
Modelled from the spec: values beyond the two logical buckets are possible on
the wire; only `HAVE_SESSION` counts as ready. -/
inductive GCConnectionStatus
  | NO_SESSION
  | HAVE_SESSION
  | other (code : Int)
deriving DecidableEq

/-- Events emitted by `CSGOClient._set_connection_status`. -/
inductive ClientEvent
  | connectionStatus (st : GCConnectionStatus)
  | ready
  | notReady
deriving DecidableEq

/-- The client state `_set_connection_status` touches: `connection_status`,
`ready`, and the attached `SOCache` (whose `_handle_cleanup` is registered on
`EVENT_READY`). -/
structure ClientState where
  connection_status : GCConnectionStatus
  ready : Bool
  socache : SOCache
deriving DecidableEq

/-- The `CSGOClient._set_connection_status` method.  Emitting `EVENT_READY`
dispatches synchronously to the cache's `_handle_cleanup` handler, so the
became-ready branch also clears the cache.  No handler is registered on
`EVENT_NOT_READY`, so that branch leaves the cache untouched. -/
def _set_connection_status (cs : ClientState) (status : GCConnectionStatus) :
    ClientState × List ClientEvent :=
  let evs : List ClientEvent :=
    if status ≠ cs.connection_status then [.connectionStatus status] else []
  if status = .HAVE_SESSION ∧ cs.ready = false then
    (⟨status, true, _handle_cleanup cs.socache⟩, evs ++ [.ready])
  else if status ≠ .HAVE_SESSION ∧ cs.ready = true then
    (⟨status, false, cs.socache⟩, evs ++ [.notReady])
  else
    (⟨status, cs.ready, cs.socache⟩, evs)

/-- Channels of the client's event emitter that `_process_gc_message`
publishes on: the type-keyed channel for the mapped emsg, and the
`job_<id>` channels. -/
inductive Channel
  | msg (emsg : Int)
  | job (jobId : Nat)
deriving DecidableEq

/-- The `CSGOClient._process_gc_message` method.  The registry
(`get_emsg_enum` / `find_proto`) and protobuf parsing are external: a frame
arrives with its mapped emsg value, its header's 64-bit `job_id_target`, and
a payload; `findProto` resolving to `none` is the logged drop.  Returns the
publications `(channel, record)` in order; the job publication uses the
literal header value and carries the same decoded record. -/
def _process_gc_message (findProto : Int → Option (Int → Int))
    (emsg : Int) (jobIdTarget : Nat) (payload : Int) : List (Channel × Int) :=
  match findProto emsg with
  | none => []
  | some parse =>
    let message := parse payload
    (Channel.msg emsg, message) ::
      (if jobIdTarget ≠ 18446744073709551615 then [(Channel.job jobIdTarget, message)]
       else [])

/-- The job-id allocation step of `CSGOClient.send_job`:
`self.current_jobid = ((self.current_jobid + 1) % 10000) or 1`.  Python ints
are modelled as `Int`; Python `%` and Lean's `Int` `%` agree for a positive
modulus. -/
def nextJobId (current_jobid : Int) : Int :=
  let r := (current_jobid + 1) % 10000
  if r = 0 then 1 else r


/-- Shape constraint used by the Destroy theorem: rules out the
container shapes unreachable for a type's key kind (a truthy dict stored at a
singleton slot, a bare message stored at a keyed slot), on which the Python
handler would raise instead of emitting. -/
def destroyShapeOk (kf : KeyFields) (c? : Option Container) : Prop :=
  match kf, c? with
  | .noKey, some (.table (_ :: _)) => False
  | .fieldList _, some (.single _) => False
  | _, _ => True

/-- The instance `_handle_destroy` emits with `removed`, as a function of the
key kind, the container stored for the type, and the decoded destroy record:
the popped stored instance with its content overwritten by the decoded
record when it exists and is truthy, the freshly decoded instance otherwise. -/
def destroyEmittedObj (kf : KeyFields) (c? : Option Container) (od : Inst) : Inst :=
  match kf, c? with
  | .noKey, some (.single i) =>
    if i.content.truthy then ⟨i.ident, od.content⟩ else od
  | .fieldList _, some (.table es) =>
    match lookupA es od.content.keyVal with
    | some i => if i.content.truthy then ⟨i.ident, od.content⟩ else od
    | none => od
  | _, _ => od

end csgo

-- ===================== theorems =====================

theorem digitsLE_length (B : Nat) : ∀ k n, (digitsLE B k n).length = k := by
  intro k
  induction k with
  | zero => intro n; rfl
  | succ k ih => intro n; simp [digitsLE, ih]

theorem digitsLE_lt {B : Nat} (hB : 0 < B) : ∀ k n d, d ∈ digitsLE B k n → d < B := by
  intro k
  induction k with
  | zero => intro n d h; simp [digitsLE] at h
  | succ k ih =>
    intro n d h
    simp only [digitsLE, List.mem_cons] at h
    rcases h with h | h
    · exact h ▸ Nat.mod_lt _ hB
    · exact ih _ _ h

theorem valMSB_nil (B : Nat) : valMSB B [] = 0 := rfl

theorem valMSB_concat (B : Nat) (l : List Nat) (d : Nat) :
    valMSB B (l ++ [d]) = valMSB B l * B + d := by
  simp [valMSB, List.foldl_append]

theorem valMSB_lt {B : Nat} (hB : 0 < B) (l : List Nat) (h : ∀ d ∈ l, d < B) :
    valMSB B l < B ^ l.length := by
  induction l using List.reverseRecOn with
  | nil => simp [valMSB]
  | append_singleton l d ih =>
    have hd : d < B := h d (by simp)
    have hl : valMSB B l < B ^ l.length := ih (fun x hx => h x (by simp [hx]))
    have : valMSB B l * B + d < B ^ l.length * B := by
      have h1 : valMSB B l * B ≤ (B ^ l.length - 1) * B := by
        exact Nat.mul_le_mul_right _ (by omega)
      have h2 : (B ^ l.length - 1) * B + B = B ^ l.length * B := by
        have h3 : 1 ≤ B ^ l.length := Nat.pos_pow_of_pos _ hB
        calc (B ^ l.length - 1) * B + B = (B ^ l.length - 1 + 1) * B := (Nat.succ_mul _ _).symm
          _ = B ^ l.length * B := by congr 1; omega
      omega
    simpa [valMSB_concat, List.length_append, Nat.pow_succ] using this

theorem mod_pow_succ' (B k n : Nat) (hB : 0 < B) :
    n % B ^ (k + 1) = (n / B % B ^ k) * B + n % B := by
  conv_lhs => rw [← Nat.div_add_mod n B]
  have hpk : 0 < B ^ k := Nat.pos_pow_of_pos _ hB
  have h1 : B * (n / B) + n % B = (n / B) * B + n % B := by ring
  rw [h1]
  have h2 : B ^ (k + 1) = B ^ k * B := by rw [Nat.pow_succ]
  rw [h2]
  rw [Nat.add_mod]
  have h3 : n / B * B % (B ^ k * B) = (n / B % B ^ k) * B := by
    calc n / B * B % (B ^ k * B) = B * (n / B) % (B * B ^ k) := by ring_nf
      _ = B * (n / B % B ^ k) := Nat.mul_mod_mul_left _ _ _
      _ = (n / B % B ^ k) * B := by ring
  have h4 : n % B % (B ^ k * B) = n % B := by
    apply Nat.mod_eq_of_lt
    have : n % B < B := Nat.mod_lt _ hB
    have : B ≤ B ^ k * B := by
      have := Nat.succ_le_of_lt hpk
      calc B = 1 * B := by ring
        _ ≤ B ^ k * B := Nat.mul_le_mul_right _ hpk
    omega
  rw [h3, h4]
  apply Nat.mod_eq_of_lt
  have h5 : n / B % B ^ k ≤ B ^ k - 1 := by
    have := Nat.mod_lt (n / B) hpk
    omega
  have h6 : (n / B % B ^ k) * B ≤ (B ^ k - 1) * B := Nat.mul_le_mul_right _ h5
  have h7 : n % B < B := Nat.mod_lt _ hB
  have h8 : (B ^ k - 1) * B + B = B ^ k * B := by
    have h9 : 1 ≤ B ^ k := hpk
    calc (B ^ k - 1) * B + B = (B ^ k - 1 + 1) * B := (Nat.succ_mul _ _).symm
      _ = B ^ k * B := by congr 1; omega
  omega

theorem valMSB_reverse_digitsLE (B : Nat) (hB : 0 < B) :
    ∀ k n, valMSB B (digitsLE B k n).reverse = n % B ^ k := by
  intro k
  induction k with
  | zero => intro n; simp [digitsLE, valMSB, Nat.mod_one]
  | succ k ih =>
    intro n
    rw [digitsLE, List.reverse_cons, valMSB_concat, ih, mod_pow_succ' B k n hB]

theorem digitsLE_valMSB {B : Nat} (hB : 0 < B) (l : List Nat) (h : ∀ d ∈ l, d < B) :
    digitsLE B l.length (valMSB B l) = l.reverse := by
  induction l using List.reverseRecOn with
  | nil => rfl
  | append_singleton l d ih =>
    have hd : d < B := h d (by simp)
    have hrec := ih (fun x hx => h x (by simp [hx]))
    rw [List.length_append, List.length_singleton, valMSB_concat, digitsLE]
    have hmod : (valMSB B l * B + d) % B = d := by
      rw [show valMSB B l * B + d = B * valMSB B l + d by ring, Nat.mul_add_mod]
      exact Nat.mod_eq_of_lt hd
    have hdiv : (valMSB B l * B + d) / B = valMSB B l := by
      have h1 : valMSB B l * B + d = B * valMSB B l + d := by ring_nf
      rw [h1, Nat.mul_add_div hB]
      simp [Nat.div_eq_of_lt hd]
    rw [hmod, hdiv, hrec, List.reverse_append]
    rfl

theorem digitsLE_succ_append (B : Nat) : ∀ k n,
    digitsLE B (k + 1) n = digitsLE B k n ++ [n / B ^ k % B] := by
  intro k
  induction k with
  | zero => intro n; simp [digitsLE]
  | succ k ih =>
    intro n
    show (n % B) :: digitsLE B (k + 1) (n / B) = ((n % B) :: digitsLE B k (n / B)) ++ _
    rw [ih (n / B), List.cons_append, Nat.div_div_eq_div_mul, ← pow_succ']

namespace sharecode

theorem swap_eq_valMSB (n : Nat) :
    _swap_endianness n = valMSB 256 (digitsLE 256 18 n) := by
  have key : ∀ k, (List.range k).foldl
      (fun result i => (result <<< 8) + ((n >>> (8 * i)) &&& 0xFF)) 0 =
      valMSB 256 (digitsLE 256 k n) := by
    intro k
    induction k with
    | zero => rfl
    | succ k ih =>
      rw [List.range_succ, List.foldl_append, ih]
      show (valMSB 256 (digitsLE 256 k n) <<< 8) + ((n >>> (8 * k)) &&& 0xFF) = _
      rw [digitsLE_succ_append 256 k n, valMSB_concat]
      rw [Nat.shiftLeft_eq, Nat.shiftRight_eq_div_pow]
      rw [show (0xFF : Nat) = 2 ^ 8 - 1 from rfl, Nat.and_pow_two_sub_one_eq_mod]
      rw [Nat.pow_mul]
  exact key 18

theorem swap_endianness_lt (n : Nat) : _swap_endianness n < 2 ^ 144 := by
  rw [swap_eq_valMSB]
  have h := valMSB_lt (B := 256) (by norm_num) (digitsLE 256 18 n)
      (fun d hd => digitsLE_lt (by norm_num) 18 n d hd)
  rw [digitsLE_length] at h
  calc valMSB 256 (digitsLE 256 18 n) < 256 ^ 18 := h
    _ = 2 ^ 144 := by norm_num

theorem swap_swap {n : Nat} (h : n < 2 ^ 144) :
    _swap_endianness (_swap_endianness n) = n := by
  rw [swap_eq_valMSB n, swap_eq_valMSB]
  have hlen : (digitsLE 256 18 n).length = 18 := digitsLE_length 256 18 n
  have hd : ∀ d ∈ digitsLE 256 18 n, d < 256 :=
    fun d hd => digitsLE_lt (by norm_num) 18 n d hd
  have h1 : digitsLE 256 18 (valMSB 256 (digitsLE 256 18 n)) = (digitsLE 256 18 n).reverse := by
    conv_lhs => rw [← hlen]
    exact digitsLE_valMSB (by norm_num) _ hd
  rw [h1, valMSB_reverse_digitsLE 256 (by norm_num) 18 n]
  rw [Nat.mod_eq_of_lt]
  calc n < 2 ^ 144 := h
    _ = 256 ^ 18 := by norm_num

theorem DICTIONARY_LENGTH_eq : DICTIONARY_LENGTH = 57 := by decide

theorem indexOf_dictChar_fin : ∀ d : Fin 57, dictionary.indexOf (dictChar d.val) = d.val := by
  decide

theorem indexOf_dictChar {d : Nat} (hd : d < 57) : dictionary.indexOf (dictChar d) = d :=
  indexOf_dictChar_fin ⟨d, hd⟩

theorem isCodeChar_dictChar_fin : ∀ d : Fin 57, isCodeChar (dictChar d.val) = true := by decide

theorem isCodeChar_dictChar {d : Nat} (hd : d < 57) : isCodeChar (dictChar d) = true :=
  isCodeChar_dictChar_fin ⟨d, hd⟩

theorem dictChar_ne_dash_fin : ∀ d : Fin 57, (dictChar d.val != '-') = true := by decide

theorem dictChar_ne_dash {d : Nat} (hd : d < 57) : (dictChar d != '-') = true :=
  dictChar_ne_dash_fin ⟨d, hd⟩

theorem encodeChars_length (num : Nat) : (encodeChars num).length = 25 := by
  simp [encodeChars, digitsLE_length]

theorem encodeChars_mem {num : Nat} {c : Char} (hc : c ∈ encodeChars num) :
    ∃ d, d < 57 ∧ c = dictChar d := by
  simp only [encodeChars, List.mem_map] at hc
  obtain ⟨d, hd, rfl⟩ := hc
  refine ⟨d, ?_, rfl⟩
  have h := digitsLE_lt (B := DICTIONARY_LENGTH) (by rw [DICTIONARY_LENGTH_eq]; norm_num)
    25 num d hd
  rwa [DICTIONARY_LENGTH_eq] at h

theorem length_eq_five {α : Type} {g : List α} (hg : g.length = 5) :
    ∃ c1 c2 c3 c4 c5, g = [c1, c2, c3, c4, c5] := by
  match g with
  | [c1, c2, c3, c4, c5] => exact ⟨c1, c2, c3, c4, c5, rfl⟩
  | [] | [_] | [_, _] | [_, _, _] | [_, _, _, _] => simp at hg
  | _ :: _ :: _ :: _ :: _ :: _ :: l =>
    simp only [List.length_cons] at hg
    omega

theorem groupsOk_cons {g rest : List Char} (hg : g.length = 5)
    (hall : ∀ c ∈ g, isCodeChar c = true) {k : Nat} (hrest : groupsOk k rest = true) :
    groupsOk (k + 1) ('-' :: (g ++ rest)) = true := by
  obtain ⟨c1, c2, c3, c4, c5, rfl⟩ := length_eq_five hg
  have h1 := hall c1 (by simp)
  have h2 := hall c2 (by simp)
  have h3 := hall c3 (by simp)
  have h4 := hall c4 (by simp)
  have h5 := hall c5 (by simp)
  show (isCodeChar c1 && isCodeChar c2 && isCodeChar c3 && isCodeChar c4 && isCodeChar c5 &&
      groupsOk k rest) = true
  rw [h1, h2, h3, h4, h5, hrest]
  rfl

theorem codePatternMatch_assembled (code : List Char) (hlen : code.length = 25)
    (hall : ∀ c ∈ code, isCodeChar c = true) :
    codePatternMatch (assembled code) = true := by
  show groupsOk 5 ('-' :: (code.take 5 ++ '-' :: ((code.drop 5).take 5 ++
    '-' :: ((code.drop 10).take 5 ++ '-' :: ((code.drop 15).take 5 ++
    '-' :: code.drop 20))))) = true
  apply groupsOk_cons (by simp [hlen]) (fun c hc => hall c (List.mem_of_mem_take hc))
  apply groupsOk_cons (by simp [hlen])
    (fun c hc => hall c (List.mem_of_mem_drop (List.mem_of_mem_take hc)))
  apply groupsOk_cons (by simp [hlen])
    (fun c hc => hall c (List.mem_of_mem_drop (List.mem_of_mem_take hc)))
  apply groupsOk_cons (by simp [hlen])
    (fun c hc => hall c (List.mem_of_mem_drop (List.mem_of_mem_take hc)))
  rw [show code.drop 20 = code.drop 20 ++ [] from (List.append_nil _).symm]
  apply groupsOk_cons (by simp [hlen]) (fun c hc => hall c (List.mem_of_mem_drop hc))
  rfl

theorem strip_assembled (code : List Char) (hnd : ∀ c ∈ code, (c != '-') = true) :
    (stripCSGO (assembled code)).filter (fun c => c != '-') = code := by
  show ('-' :: (code.take 5 ++ '-' :: ((code.drop 5).take 5 ++
    '-' :: ((code.drop 10).take 5 ++ '-' :: ((code.drop 15).take 5 ++
    '-' :: code.drop 20))))).filter (fun c => c != '-') = code
  have hdash : (('-' : Char) != '-') = false := by decide
  have ftake : ∀ n, (code.drop n).filter (fun c => c != '-') = code.drop n :=
    fun n => List.filter_eq_self.mpr (fun c hc => hnd c (List.mem_of_mem_drop hc))
  have ftake2 : ∀ n k, ((code.drop n).take k).filter (fun c => c != '-') = (code.drop n).take k :=
    fun n k => List.filter_eq_self.mpr
      (fun c hc => hnd c (List.mem_of_mem_drop (List.mem_of_mem_take hc)))
  have ftake0 : (code.take 5).filter (fun c => c != '-') = code.take 5 :=
    List.filter_eq_self.mpr (fun c hc => hnd c (List.mem_of_mem_take hc))
  simp only [List.filter_cons, hdash, List.filter_append, ftake, ftake2, ftake0,
    Bool.false_eq_true, if_false]
  have h20 : (code.drop 15).take 5 ++ code.drop 20 = code.drop 15 := by
    rw [show code.drop 20 = (code.drop 15).drop 5 by rw [List.drop_drop]]
    exact List.take_append_drop 5 _
  have h15 : (code.drop 10).take 5 ++ code.drop 15 = code.drop 10 := by
    rw [show code.drop 15 = (code.drop 10).drop 5 by rw [List.drop_drop]]
    exact List.take_append_drop 5 _
  have h10 : (code.drop 5).take 5 ++ code.drop 10 = code.drop 5 := by
    rw [show code.drop 10 = (code.drop 5).drop 5 by rw [List.drop_drop]]
    exact List.take_append_drop 5 _
  rw [h20, h15, h10, List.take_append_drop]

theorem decodeNum_encodeChars (num : Nat) :
    (encodeChars num).reverse.foldl
      (fun a c => a * DICTIONARY_LENGTH + dictionary.indexOf c) 0 = num % 57 ^ 25 := by
  rw [encodeChars, ← List.map_reverse, List.foldl_map]
  rw [List.foldl_ext _ 0
    (g := fun (a d : Nat) => a * 57 + d) ?ext]
  case ext =>
    intro a d hd
    have hd57 : d < 57 := by
      have h := digitsLE_lt (B := DICTIONARY_LENGTH)
        (by rw [DICTIONARY_LENGTH_eq]; norm_num) 25 num d (List.mem_reverse.mp hd)
      rwa [DICTIONARY_LENGTH_eq] at h
    rw [DICTIONARY_LENGTH_eq, indexOf_dictChar hd57]
  rw [DICTIONARY_LENGTH_eq]
  exact valMSB_reverse_digitsLE 57 (by norm_num) 25 num

theorem pack_eq {m o t : Nat} (hm : m < 2 ^ 64) (ho : o < 2 ^ 64) (ht : t < 2 ^ 16) :
    (t <<< 128) ||| (o <<< 64) ||| m = 2 ^ 128 * t + 2 ^ 64 * o + m := by
  rw [Nat.shiftLeft_eq, Nat.shiftLeft_eq]
  have h1 : o * 2 ^ 64 < 2 ^ 128 := by
    calc o * 2 ^ 64 ≤ (2 ^ 64 - 1) * 2 ^ 64 := Nat.mul_le_mul_right _ (by omega)
      _ < 2 ^ 128 := by norm_num
  have h2 : t * 2 ^ 128 ||| o * 2 ^ 64 = 2 ^ 128 * t + o * 2 ^ 64 := by
    rw [show t * 2 ^ 128 = 2 ^ 128 * t by ring]
    exact (Nat.mul_add_lt_is_or h1 t).symm
  rw [h2]
  rw [show 2 ^ 128 * t + o * 2 ^ 64 = 2 ^ 64 * (2 ^ 64 * t + o) by ring]
  rw [← Nat.mul_add_lt_is_or hm _]
  ring

end sharecode

namespace sharecode

theorem pack_lt {m o t : Nat} (hm : m < 2 ^ 64) (ho : o < 2 ^ 64) (ht : t < 2 ^ 16) :
    2 ^ 128 * t + 2 ^ 64 * o + m < 2 ^ 144 := by
  have hb1 : 2 ^ 128 * t ≤ 2 ^ 128 * (2 ^ 16 - 1) := Nat.mul_le_mul_left _ (by omega)
  have hb2 : 2 ^ 64 * o ≤ 2 ^ 64 * (2 ^ 64 - 1) := Nat.mul_le_mul_left _ (by omega)
  have he : (2 : Nat) ^ 128 * (2 ^ 16 - 1) + 2 ^ 64 * (2 ^ 64 - 1) + 2 ^ 64 = 2 ^ 144 := by
    norm_num
  omega

theorem pack_extract_matchid {m o t : Nat} (hm : m < 2 ^ 64) :
    (2 ^ 128 * t + 2 ^ 64 * o + m) &&& _bitmask64 = m := by
  rw [show _bitmask64 = 2 ^ 64 - 1 from rfl, Nat.and_pow_two_sub_one_eq_mod]
  rw [show 2 ^ 128 * t + 2 ^ 64 * o + m = 2 ^ 64 * (2 ^ 64 * t + o) + m by ring]
  rw [Nat.mul_add_mod]
  exact Nat.mod_eq_of_lt hm

theorem pack_extract_outcomeid {m o t : Nat} (hm : m < 2 ^ 64) (ho : o < 2 ^ 64) :
    ((2 ^ 128 * t + 2 ^ 64 * o + m) >>> 64) &&& _bitmask64 = o := by
  rw [Nat.shiftRight_eq_div_pow]
  rw [show 2 ^ 128 * t + 2 ^ 64 * o + m = 2 ^ 64 * (2 ^ 64 * t + o) + m by ring]
  rw [Nat.mul_add_div (by norm_num)]
  rw [Nat.div_eq_of_lt hm, Nat.add_zero]
  rw [show _bitmask64 = 2 ^ 64 - 1 from rfl, Nat.and_pow_two_sub_one_eq_mod]
  rw [show 2 ^ 64 * t + o = 2 ^ 64 * t + o by rfl, Nat.mul_add_mod]
  exact Nat.mod_eq_of_lt ho

theorem pack_extract_token {m o t : Nat} (hm : m < 2 ^ 64) (ho : o < 2 ^ 64)
    (ht : t < 2 ^ 16) :
    ((2 ^ 128 * t + 2 ^ 64 * o + m) >>> 128) &&& 0xFFFF = t := by
  rw [Nat.shiftRight_eq_div_pow]
  rw [show 2 ^ 128 * t + 2 ^ 64 * o + m = 2 ^ 128 * t + (2 ^ 64 * o + m) by ring]
  have hsmall : 2 ^ 64 * o + m < 2 ^ 128 := by
    have hb2 : 2 ^ 64 * o ≤ 2 ^ 64 * (2 ^ 64 - 1) := Nat.mul_le_mul_left _ (by omega)
    have he : (2 : Nat) ^ 64 * (2 ^ 64 - 1) + 2 ^ 64 = 2 ^ 128 := by norm_num
    omega
  rw [Nat.mul_add_div (by norm_num), Nat.div_eq_of_lt hsmall, Nat.add_zero]
  rw [show (0xFFFF : Nat) = 2 ^ 16 - 1 from rfl, Nat.and_pow_two_sub_one_eq_mod]
  exact Nat.mod_eq_of_lt ht

/-- C8: for all `m, o` in `[0, 2^64)` and `t` in `[0, 2^16)`,
`decode (encode m o t)` returns exactly `{'matchid': m, 'outcomeid': o,
'token': t}`; the round trip holds for the whole ranges, in particular at the
boundary values `0` and the maxima. -/
theorem decode_encode (m o t : Nat) (hm : m < 2 ^ 64) (ho : o < 2 ^ 64)
    (ht : t < 2 ^ 16) :
    decode (encode m o t) = some ⟨m, o, t⟩ := by
  have hpack : (t <<< 128) ||| (o <<< 64) ||| m = 2 ^ 128 * t + 2 ^ 64 * o + m :=
    pack_eq hm ho ht
  have hPlt : 2 ^ 128 * t + 2 ^ 64 * o + m < 2 ^ 144 := pack_lt hm ho ht
  have hdata : (encode m o t).data =
      assembled (encodeChars (_swap_endianness ((t <<< 128) ||| (o <<< 64) ||| m))) := rfl
  set N := _swap_endianness ((t <<< 128) ||| (o <<< 64) ||| m) with hN
  have hmem : ∀ c ∈ encodeChars N, isCodeChar c = true := by
    intro c hc
    obtain ⟨d, hd, rfl⟩ := encodeChars_mem hc
    exact isCodeChar_dictChar hd
  have hne : ∀ c ∈ encodeChars N, (c != '-') = true := by
    intro c hc
    obtain ⟨d, hd, rfl⟩ := encodeChars_mem hc
    exact dictChar_ne_dash hd
  have hpat : codePatternMatch (assembled (encodeChars N)) = true :=
    codePatternMatch_assembled _ (encodeChars_length N) hmem
  have hstrip : (stripCSGO (assembled (encodeChars N))).filter (fun c => c != '-') =
      encodeChars N := strip_assembled _ hne
  have hNlt : N < 2 ^ 144 := swap_endianness_lt _
  have hfold : (encodeChars N).reverse.foldl
      (fun a c => a * DICTIONARY_LENGTH + dictionary.indexOf c) 0 = N := by
    rw [decodeNum_encodeChars]
    apply Nat.mod_eq_of_lt
    calc N < 2 ^ 144 := hNlt
      _ ≤ 57 ^ 25 := by norm_num
  have hswapN : _swap_endianness N = 2 ^ 128 * t + 2 ^ 64 * o + m := by
    rw [hN, hpack]
    exact swap_swap (hpack ▸ hPlt)
  rw [decode, hdata, hpat]
  simp only [if_true, hstrip, hfold, hswapN]
  rw [pack_extract_matchid hm, pack_extract_outcomeid hm ho,
    pack_extract_token hm ho ht]

/-- Witness for C8: the round trip evaluated at the maximal boundary values
`m = 2^64 - 1`, `o = 2^64 - 1`, `t = 2^16 - 1`. -/
theorem decode_encode_witness :
    (2 ^ 64 - 1 < 2 ^ 64 ∧ 2 ^ 16 - 1 < 2 ^ 16) ∧
      decode (encode (2 ^ 64 - 1) (2 ^ 64 - 1) (2 ^ 16 - 1)) =
        some ⟨2 ^ 64 - 1, 2 ^ 64 - 1, 2 ^ 16 - 1⟩ :=
  ⟨⟨by norm_num, by norm_num⟩,
    decode_encode (2 ^ 64 - 1) (2 ^ 64 - 1) (2 ^ 16 - 1)
      (by norm_num) (by norm_num) (by norm_num)⟩

end sharecode

namespace csgo

theorem lookupA_setA_self {κ ν : Type} [DecidableEq κ] (l : List (κ × ν)) (k : κ) (v : ν) :
    lookupA (setA l k v) k = some v := by
  induction l with
  | nil => simp [setA, lookupA]
  | cons p rest ih =>
    obtain ⟨k', w⟩ := p
    by_cases h : k' = k <;> simp [setA, lookupA, h, ih]

theorem setA_setA {κ ν : Type} [DecidableEq κ] (l : List (κ × ν)) (k : κ) (v w : ν) :
    setA (setA l k v) k w = setA l k w := by
  induction l with
  | nil => simp [setA]
  | cons p rest ih =>
    obtain ⟨k', u⟩ := p
    by_cases h : k' = k <;> simp [setA, h, ih]

/-- C6: the job id allocator of `send_job` never yields 0: from every
starting counter value the allocated id lies in 1..9999; the allocation
following an allocated id `a ≤ 9998` yields `a + 1`, and the allocation
following 9999 yields 1 (deterministic wrap), so the sequence is strictly
increasing modulo the wraparound. -/
theorem send_job_id_allocator (c : Int) :
    (1 ≤ nextJobId c ∧ nextJobId c ≤ 9999) ∧
    (∀ a : Int, 1 ≤ a → a ≤ 9998 → nextJobId a = a + 1) ∧
    nextJobId 9999 = 1 := by
  refine ⟨?_, ?_, by decide⟩
  · have h0 : 0 ≤ (c + 1) % 10000 := Int.emod_nonneg _ (by norm_num)
    have h1 : (c + 1) % 10000 < 10000 := Int.emod_lt_of_pos _ (by norm_num)
    simp only [nextJobId]
    split <;> omega
  · intro a ha1 ha2
    unfold nextJobId
    have he : (a + 1) % 10000 = a + 1 := Int.emod_eq_of_lt (by omega) (by omega)
    rw [he]
    have : ¬(a + 1 = 0) := by omega
    simp [this]

/-- Witness for C6: allocation from counter 0 yields 1; the allocation after
the id 9999 wraps to 1. -/
theorem send_job_id_allocator_witness :
    (1 ≤ nextJobId 0 ∧ nextJobId 0 ≤ 9999) ∧ nextJobId 9998 = 9998 + 1 ∧
      nextJobId 9999 = 1 :=
  ⟨(send_job_id_allocator 0).1,
    (send_job_id_allocator 0).2.1 9998 (by norm_num) (by norm_num),
    (send_job_id_allocator 0).2.2⟩

/-- C7: an inbound frame that resolves to a decoder is published on its
type-keyed channel; when the header's 64-bit target field equals the sentinel
`2^64 - 1` there is no job publication, otherwise the same decoded record is
additionally published on the job channel keyed by the literal (unreduced)
header value. -/
theorem process_gc_message_routing (findProto : Int → Option (Int → Int))
    (emsg : Int) (jobIdTarget : Nat) (payload : Int) (parse : Int → Int)
    (hp : findProto emsg = some parse) :
    (jobIdTarget = 2 ^ 64 - 1 →
      _process_gc_message findProto emsg jobIdTarget payload =
        [(Channel.msg emsg, parse payload)]) ∧
    (jobIdTarget ≠ 2 ^ 64 - 1 →
      _process_gc_message findProto emsg jobIdTarget payload =
        [(Channel.msg emsg, parse payload), (Channel.job jobIdTarget, parse payload)]) := by
  have hsent : (18446744073709551615 : Nat) = 2 ^ 64 - 1 := by norm_num
  unfold _process_gc_message
  rw [hp]
  constructor
  · intro h
    simp only [hsent, h]
    simp
  · intro h
    have h' : jobIdTarget ≠ 18446744073709551615 := by rw [hsent]; exact h
    simp [h']

/-- Witness for C7: a registry resolving emsg 1 to the identity decoder; the
sentinel target publishes only on the type channel, the target 5 publishes on
both. -/
theorem process_gc_message_routing_witness :
    (_process_gc_message (fun _ => some (fun p => p)) 1 (2 ^ 64 - 1) 7 =
      [(Channel.msg 1, 7)]) ∧
    (_process_gc_message (fun _ => some (fun p => p)) 1 5 7 =
      [(Channel.msg 1, 7), (Channel.job 5, 7)]) :=
  ⟨(process_gc_message_routing (fun _ => some (fun p => p)) 1 (2 ^ 64 - 1) 7
      (fun p => p) rfl).1 rfl,
    (process_gc_message_routing (fun _ => some (fun p => p)) 1 5 7
      (fun p => p) rfl).2 (by norm_num)⟩

/-- C10: `socache[x]` raises `KeyError` exactly when `x` is not a valid
`ESOType` value; a valid type not yet present is lazily bound to a fresh
empty dict (singleton types included), and the lookup of a valid type never
raises. -/
theorem socache_getitem_spec (s : SOCache) (x : Int) :
    (socache_getitem s x = none ↔ ESOType.ofInt x = none) ∧
    (∀ t, ESOType.ofInt x = some t → lookupA s.caches t = none →
      socache_getitem s x =
        some (⟨setA s.caches t (.table []), s.subs⟩, .table [])) := by
  constructor
  · unfold socache_getitem
    cases h : ESOType.ofInt x <;> simp [h]
  · intro t ht hl
    unfold socache_getitem getContainer
    rw [ht]
    simp [hl]

/-- Witness for C10: reading the singleton type `CSOEconGameAccountClient`
(value 7) from an empty cache installs and returns an empty dict. -/
theorem socache_getitem_spec_witness :
    socache_getitem ⟨[], []⟩ 7 =
      some (⟨[(ESOType.CSOEconGameAccountClient, .table [])], []⟩, .table []) :=
  (socache_getitem_spec ⟨[], []⟩ 7).2 ESOType.CSOEconGameAccountClient rfl rfl

/-- C4: a ready → not-ready → ready session cycle leaves the cache with no
shared object and no subscription record: the became-ready edge runs the
wholesale `_handle_cleanup`, so nothing stored before the cycle survives it. -/
theorem cache_cleared_on_ready_cycle (cs : ClientState) (st1 : GCConnectionStatus)
    (h0 : cs.ready = true) (h1 : st1 ≠ .HAVE_SESSION) :
    (_set_connection_status (_set_connection_status cs st1).1 .HAVE_SESSION).1.socache =
      ⟨[], []⟩ := by
  unfold _set_connection_status
  simp [h0, h1, _handle_cleanup]

/-- Witness for C4: a concrete ready client holding one item and one
subscription record goes not-ready and ready again; the cache is empty. -/
theorem cache_cleared_on_ready_cycle_witness :
    (_set_connection_status
      (_set_connection_status
        ⟨.HAVE_SESSION, true,
          ⟨[(.CSOEconItem, .table [(1, ⟨1, ⟨1, 0, true⟩⟩)])], [((2, 3), ⟨1, [1]⟩)]⟩⟩
        .NO_SESSION).1 .HAVE_SESSION).1.socache = ⟨[], []⟩ :=
  cache_cleared_on_ready_cycle _ .NO_SESSION rfl (by decide)

end csgo

namespace csgo

/-- Counterexample for C5: a ready client holding one cached item transitions
to `NO_SESSION`.  The `notready` event is emitted, but the cache is untouched
and still nonempty: the ready-to-not-ready transition does not trigger the
cache-wide cleanup that the claim attributes to it (`_handle_cleanup` is
registered on `EVENT_READY`, not on `EVENT_NOT_READY`). -/
theorem notready_no_cleanup_cex :
    (_set_connection_status
        ⟨.HAVE_SESSION, true,
          ⟨[(.CSOEconItem, .table [(1, ⟨1, ⟨1, 0, true⟩⟩)])], []⟩⟩ .NO_SESSION).2 =
      [.connectionStatus .NO_SESSION, .notReady] ∧
    (_set_connection_status
        ⟨.HAVE_SESSION, true,
          ⟨[(.CSOEconItem, .table [(1, ⟨1, ⟨1, 0, true⟩⟩)])], []⟩⟩ .NO_SESSION).1.socache =
      ⟨[(.CSOEconItem, .table [(1, ⟨1, ⟨1, 0, true⟩⟩)])], []⟩ ∧
    (⟨[(.CSOEconItem, .table [(1, ⟨1, ⟨1, 0, true⟩⟩)])], []⟩ : SOCache) ≠ ⟨[], []⟩ := by
  refine ⟨?_, ?_, by decide⟩ <;> rfl

/-- C5 (amended): whenever the connection status category changes from ready
to not-ready, the client emits the `notready` event exactly once (after the
`connection_status` event when the raw status value changed), and it leaves
the shared-object cache untouched; the cache-wide cleanup is instead
triggered by the not-ready-to-ready edge. -/
theorem notready_emits_once_cleanup_on_ready (cs : ClientState)
    (st : GCConnectionStatus) (h0 : cs.ready = true) (h1 : st ≠ .HAVE_SESSION) :
    ((_set_connection_status cs st).2 =
      (if st ≠ cs.connection_status then [ClientEvent.connectionStatus st] else []) ++
        [ClientEvent.notReady]) ∧
    (_set_connection_status cs st).1.socache = cs.socache ∧
    (∀ cs' : ClientState, cs'.ready = false →
      (_set_connection_status cs' .HAVE_SESSION).1.socache = ⟨[], []⟩) := by
  refine ⟨?_, ?_, ?_⟩
  · unfold _set_connection_status
    simp [h0, h1]
  · unfold _set_connection_status
    simp [h0, h1]
  · intro cs' h'
    unfold _set_connection_status
    simp [h', _handle_cleanup]

/-- Witness for C5 (amended): a ready client with one cached item emits
`connection_status` then `notready` on going to `NO_SESSION` and keeps its
cache; a not-ready client becoming ready gets a cleared cache. -/
theorem notready_emits_once_cleanup_on_ready_witness :
    ((_set_connection_status
        ⟨.HAVE_SESSION, true, ⟨[(.CSOEconItem, .table [])], []⟩⟩ .NO_SESSION).2 =
      (if (GCConnectionStatus.NO_SESSION : GCConnectionStatus) ≠ .HAVE_SESSION then
        [ClientEvent.connectionStatus .NO_SESSION] else []) ++ [ClientEvent.notReady]) ∧
    (_set_connection_status
        ⟨.HAVE_SESSION, true, ⟨[(.CSOEconItem, .table [])], []⟩⟩ .NO_SESSION).1.socache =
      ⟨[(.CSOEconItem, .table [])], []⟩ ∧
    (_set_connection_status ⟨.NO_SESSION, false, ⟨[(.CSOEconItem, .table [])], []⟩⟩
      .HAVE_SESSION).1.socache = ⟨[], []⟩ :=
  ⟨(notready_emits_once_cleanup_on_ready
      ⟨.HAVE_SESSION, true, ⟨[(.CSOEconItem, .table [])], []⟩⟩ .NO_SESSION rfl (by decide)).1,
    (notready_emits_once_cleanup_on_ready
      ⟨.HAVE_SESSION, true, ⟨[(.CSOEconItem, .table [])], []⟩⟩ .NO_SESSION rfl
      (by decide)).2.1,
    (notready_emits_once_cleanup_on_ready
      ⟨.HAVE_SESSION, true, ⟨[(.CSOEconItem, .table [])], []⟩⟩ .NO_SESSION rfl
      (by decide)).2.2 ⟨.NO_SESSION, false, ⟨[(.CSOEconItem, .table [])], []⟩⟩ rfl⟩

end csgo

namespace csgo

theorem update_object_fresh_noKey (σ : Schema) (s : SOCache) (tid : Int)
    (t : ESOType) (od : Inst) (ht : ESOType.ofInt tid = some t)
    (hp : σ t = .found .noKey)
    (hc : lookupA s.caches t = none ∨ lookupA s.caches t = some (.table [])) :
    _update_object σ s tid od = (⟨setA s.caches t (.single od), s.subs⟩, .ok t od) := by
  rcases hc with hc | hc <;>
    simp [_update_object, _parse_object_data, ht, hp, getContainer, hc, setA_setA]

theorem update_object_copy_noKey (σ : Schema) (s : SOCache) (tid : Int)
    (t : ESOType) (od i : Inst) (ht : ESOType.ofInt tid = some t)
    (hp : σ t = .found .noKey) (hc : lookupA s.caches t = some (.single i)) :
    _update_object σ s tid od =
      (⟨setA s.caches t (.single ⟨i.ident, od.content⟩), s.subs⟩,
        .ok t ⟨i.ident, od.content⟩) := by
  simp [_update_object, _parse_object_data, ht, hp, getContainer, hc]

theorem update_object_fresh_keyed (σ : Schema) (s : SOCache) (tid : Int)
    (t : ESOType) (od : Inst) (f : String) (fs : List String)
    (ht : ESOType.ofInt tid = some t) (hp : σ t = .found (.fieldList (f :: fs)))
    (hc : lookupA s.caches t = none ∨ lookupA s.caches t = some (.table [])) :
    _update_object σ s tid od =
      (⟨setA s.caches t (.table [(od.content.keyVal, od)]), s.subs⟩, .ok t od) := by
  rcases hc with hc | hc <;>
    simp [_update_object, _parse_object_data, ht, hp, getContainer, hc, setA_setA, setA,
      lookupA]

theorem update_object_copy_keyed (σ : Schema) (s : SOCache) (tid : Int)
    (t : ESOType) (od i : Inst) (f : String) (fs : List String)
    (es : List (Int × Inst))
    (ht : ESOType.ofInt tid = some t) (hp : σ t = .found (.fieldList (f :: fs)))
    (hc : lookupA s.caches t = some (.table es))
    (hk : lookupA es od.content.keyVal = some i) :
    _update_object σ s tid od =
      (⟨setA s.caches t (.table (setA es od.content.keyVal ⟨i.ident, od.content⟩)),
        s.subs⟩, .ok t ⟨i.ident, od.content⟩) := by
  simp [_update_object, _parse_object_data, ht, hp, getContainer, hc, hk]

/-- C1: for every type whose resolved key kind is not "no key fields found"
(that is, either the `NO_KEY` singleton sentinel or a nonempty key-field
list), a Create followed by an Update for the same key, starting from a state
where that type's container is absent or empty, leaves exactly one stored
instance whose content is the Update's decoded content; the instance emitted
with `new` and the instance emitted with `updated` are the same stored
instance (the Update's `CopyFrom` reuses the identity installed by the
Create), so a holder of the Create-returned reference observes the updated
content. -/
theorem create_then_update (σ : Schema) (s : SOCache) (tid : Int) (t : ESOType)
    (kf : KeyFields) (od1 od2 : Inst)
    (ht : ESOType.ofInt tid = some t) (hp : σ t = .found kf)
    (hkf : kf ≠ .fieldList [])
    (hc : lookupA s.caches t = none ∨ lookupA s.caches t = some (.table []))
    (hkey : od1.content.keyVal = od2.content.keyVal) :
    (_handle_create σ s ⟨tid, od1⟩).events = [⟨.new, t, od1⟩] ∧
    (_handle_create σ s ⟨tid, od1⟩).err = false ∧
    (_handle_update σ (_handle_create σ s ⟨tid, od1⟩).state ⟨tid, od2⟩).events =
      [⟨.updated, t, ⟨od1.ident, od2.content⟩⟩] ∧
    (_handle_update σ (_handle_create σ s ⟨tid, od1⟩).state ⟨tid, od2⟩).err = false ∧
    ∃ c, lookupA
        (_handle_update σ (_handle_create σ s ⟨tid, od1⟩).state ⟨tid, od2⟩).state.caches
        t = some c ∧
      c.insts = [⟨od1.ident, od2.content⟩] := by
  match kf, hkf with
  | .noKey, _ =>
    have h1 := update_object_fresh_noKey σ s tid t od1 ht hp hc
    have hs1 : (_handle_create σ s ⟨tid, od1⟩).state =
        ⟨setA s.caches t (.single od1), s.subs⟩ := by
      simp [_handle_create, h1]
    have hl1 : lookupA (setA s.caches t (.single od1)) t = some (.single od1) :=
      lookupA_setA_self _ _ _
    have h2 := update_object_copy_noKey σ ⟨setA s.caches t (.single od1), s.subs⟩
      tid t od2 od1 ht hp hl1
    refine ⟨by simp [_handle_create, h1], by simp [_handle_create, h1], ?_, ?_, ?_⟩
    · rw [hs1]; simp [_handle_update, h2]
    · rw [hs1]; simp [_handle_update, h2]
    · refine ⟨.single ⟨od1.ident, od2.content⟩, ?_, rfl⟩
      rw [hs1]
      simp only [_handle_update, h2]
      rw [setA_setA]
      exact lookupA_setA_self _ _ _
  | .fieldList (f :: fs), _ =>
    have h1 := update_object_fresh_keyed σ s tid t od1 f fs ht hp hc
    have hs1 : (_handle_create σ s ⟨tid, od1⟩).state =
        ⟨setA s.caches t (.table [(od1.content.keyVal, od1)]), s.subs⟩ := by
      simp [_handle_create, h1]
    have hl1 : lookupA (setA s.caches t (.table [(od1.content.keyVal, od1)])) t =
        some (.table [(od1.content.keyVal, od1)]) := lookupA_setA_self _ _ _
    have hk2 : lookupA [(od1.content.keyVal, od1)] od2.content.keyVal = some od1 := by
      simp [lookupA, hkey]
    have h2 := update_object_copy_keyed σ
      ⟨setA s.caches t (.table [(od1.content.keyVal, od1)]), s.subs⟩
      tid t od2 od1 f fs [(od1.content.keyVal, od1)] ht hp hl1 hk2
    refine ⟨by simp [_handle_create, h1], by simp [_handle_create, h1], ?_, ?_, ?_⟩
    · rw [hs1]; simp [_handle_update, h2]
    · rw [hs1]; simp [_handle_update, h2]
    · refine ⟨.table [(od1.content.keyVal, ⟨od1.ident, od2.content⟩)], ?_, rfl⟩
      rw [hs1]
      simp only [_handle_update, h2]
      have hset : setA [(od1.content.keyVal, od1)] od2.content.keyVal
          (⟨od1.ident, od2.content⟩ : Inst) =
          [(od1.content.keyVal, ⟨od1.ident, od2.content⟩)] := by
        simp [setA, hkey]
      rw [hset, setA_setA]
      exact lookupA_setA_self _ _ _

/-- Witness for C1: Create then Update for the singleton type
`CSOEconGameAccountClient` (value 7) on an empty cache; the stored instance
keeps the Create's identity 1 and carries the Update's content. -/
theorem create_then_update_witness :
    (_handle_create so_key_fields ⟨[], []⟩ ⟨7, ⟨1, ⟨0, 5, true⟩⟩⟩).events =
      [⟨.new, .CSOEconGameAccountClient, ⟨1, ⟨0, 5, true⟩⟩⟩] ∧
    (_handle_create so_key_fields ⟨[], []⟩ ⟨7, ⟨1, ⟨0, 5, true⟩⟩⟩).err = false ∧
    (_handle_update so_key_fields
        (_handle_create so_key_fields ⟨[], []⟩ ⟨7, ⟨1, ⟨0, 5, true⟩⟩⟩).state
        ⟨7, ⟨2, ⟨0, 9, true⟩⟩⟩).events =
      [⟨.updated, .CSOEconGameAccountClient, ⟨1, ⟨0, 9, true⟩⟩⟩] ∧
    (_handle_update so_key_fields
        (_handle_create so_key_fields ⟨[], []⟩ ⟨7, ⟨1, ⟨0, 5, true⟩⟩⟩).state
        ⟨7, ⟨2, ⟨0, 9, true⟩⟩⟩).err = false :=
  ⟨(create_then_update so_key_fields ⟨[], []⟩ 7 .CSOEconGameAccountClient .noKey
      ⟨1, ⟨0, 5, true⟩⟩ ⟨2, ⟨0, 9, true⟩⟩ rfl rfl (by decide) (Or.inl rfl) rfl).1,
    (create_then_update so_key_fields ⟨[], []⟩ 7 .CSOEconGameAccountClient .noKey
      ⟨1, ⟨0, 5, true⟩⟩ ⟨2, ⟨0, 9, true⟩⟩ rfl rfl (by decide) (Or.inl rfl) rfl).2.1,
    (create_then_update so_key_fields ⟨[], []⟩ 7 .CSOEconGameAccountClient .noKey
      ⟨1, ⟨0, 5, true⟩⟩ ⟨2, ⟨0, 9, true⟩⟩ rfl rfl (by decide) (Or.inl rfl) rfl).2.2.1,
    (create_then_update so_key_fields ⟨[], []⟩ 7 .CSOEconGameAccountClient .noKey
      ⟨1, ⟨0, 5, true⟩⟩ ⟨2, ⟨0, 9, true⟩⟩ rfl rfl (by decide) (Or.inl rfl) rfl).2.2.2.1⟩

end csgo

namespace csgo

/-- C9: for every Destroy whose record parses, the instance emitted with
`removed` carries exactly the decoded destroy-record's content, never the
pre-removal stored content: when a stored instance existed and is truthy the
handler copies the decoded record into it before emitting it (so the emitted
instance keeps the stored identity but the destroy payload's content), and
when nothing was stored — or the stored value was empty/falsy — the freshly
decoded unstored instance is emitted instead.  The shape hypothesis rules
out the container shapes unreachable for the type's key kind, on which the
Python code would raise. -/
theorem destroy_emits_decoded_content (σ : Schema) (s : SOCache) (tid : Int)
    (t : ESOType) (kf : KeyFields) (od : Inst)
    (ht : ESOType.ofInt tid = some t) (hp : σ t = .found kf)
    (hkf : kf ≠ .fieldList [])
    (hshape : destroyShapeOk kf (lookupA s.caches t)) :
    (_handle_destroy σ s ⟨tid, od⟩).err = false ∧
    (_handle_destroy σ s ⟨tid, od⟩).events =
      [⟨.removed, t, destroyEmittedObj kf (lookupA s.caches t) od⟩] := by
  match kf, hkf with
  | .noKey, _ =>
    cases hl : lookupA s.caches t with
    | none =>
      constructor <;>
        simp [_handle_destroy, _parse_object_data, ht, hp, hl, destroyEmittedObj]
    | some c =>
      rw [hl] at hshape
      match c, hshape with
      | .single i, _ =>
        by_cases htr : i.content.truthy <;>
          constructor <;>
            simp [_handle_destroy, _parse_object_data, ht, hp, hl, htr, destroyEmittedObj]
      | .table [], _ =>
        constructor <;>
          simp [_handle_destroy, _parse_object_data, ht, hp, hl, destroyEmittedObj]
      | .table (e :: es), hsh =>
        exact absurd hsh (by simp [destroyShapeOk])
  | .fieldList (f :: fs), _ =>
    cases hl : lookupA s.caches t with
    | none =>
      constructor <;>
        simp [_handle_destroy, _parse_object_data, ht, hp, hl, getContainer, lookupA,
          destroyEmittedObj]
    | some c =>
      rw [hl] at hshape
      match c, hshape with
      | .table es, _ =>
        cases hk : lookupA es od.content.keyVal with
        | none =>
          constructor <;>
            simp [_handle_destroy, _parse_object_data, ht, hp, hl, getContainer, hk,
              destroyEmittedObj]
        | some i =>
          by_cases htr : i.content.truthy <;>
            constructor <;>
              simp [_handle_destroy, _parse_object_data, ht, hp, hl, getContainer, hk, htr,
                destroyEmittedObj]
      | .single i, hsh =>
        exact absurd hsh (by simp [destroyShapeOk])

/-- Witness for C9: destroying the stored truthy singleton
`CSOEconGameAccountClient` instance (identity 1) with a decoded record of
identity 9: the emitted instance has the stored identity 1 but the decoded
record's content. -/
theorem destroy_emits_decoded_content_witness :
    (_handle_destroy so_key_fields
      ⟨[(.CSOEconGameAccountClient, .single ⟨1, ⟨0, 5, true⟩⟩)], []⟩
      ⟨7, ⟨9, ⟨0, 77, true⟩⟩⟩).err = false ∧
    (_handle_destroy so_key_fields
      ⟨[(.CSOEconGameAccountClient, .single ⟨1, ⟨0, 5, true⟩⟩)], []⟩
      ⟨7, ⟨9, ⟨0, 77, true⟩⟩⟩).events =
      [⟨.removed, .CSOEconGameAccountClient, ⟨1, ⟨0, 77, true⟩⟩⟩] := by
  have h := destroy_emits_decoded_content so_key_fields
    ⟨[(.CSOEconGameAccountClient, .single ⟨1, ⟨0, 5, true⟩⟩)], []⟩ 7
    .CSOEconGameAccountClient .noKey ⟨9, ⟨0, 77, true⟩⟩ rfl rfl (by decide)
    (by simp [destroyShapeOk, lookupA])
  exact ⟨h.1, h.2⟩

end csgo

namespace csgo

/-- C2 (code bug, demonstration): a subscription record for owner `(2, 3)`
contains only type id 7 (`CSOEconGameAccountClient`), whose truthy singleton
instance is stored.  Processing Cache-unsubscribed emits `removed` for the
singleton via `self.pop(type_id)`, but the following `del self[type_id]`
raises `KeyError` because the entry is already gone: the error flag is set
and the subscription record is never deleted, contradicting the claim that
eviction completes for every contained type. -/
theorem cache_unsubscribed_singleton_keyerror :
    (_handle_cache_unsubscribed
      ⟨[(.CSOEconGameAccountClient, .single ⟨1, ⟨0, 0, true⟩⟩)], [((2, 3), ⟨1, [7]⟩)]⟩
      ⟨2, 3⟩).err = true ∧
    lookupA (_handle_cache_unsubscribed
      ⟨[(.CSOEconGameAccountClient, .single ⟨1, ⟨0, 0, true⟩⟩)], [((2, 3), ⟨1, [7]⟩)]⟩
      ⟨2, 3⟩).state.subs (2, 3) = some ⟨1, [7]⟩ ∧
    (_handle_cache_unsubscribed
      ⟨[(.CSOEconGameAccountClient, .single ⟨1, ⟨0, 0, true⟩⟩)], [((2, 3), ⟨1, [7]⟩)]⟩
      ⟨2, 3⟩).events =
      [⟨.removed, .CSOEconGameAccountClient, ⟨1, ⟨0, 0, true⟩⟩⟩] := by
  refine ⟨rfl, rfl, rfl⟩

/-- Counterexample for C3: a Cache-subscribed notification whose first
per-type group fails to parse (type id 999 is not a valid `ESOType`) followed
by a second group with a valid `CSOEconItem` object.  The `break` in the
source only abandons the failing group: the second group's object is still
applied to the cache and emitted as `new`, so a bundled object after the
failing one IS processed, refuting the claim. -/
theorem cache_subscribed_later_group_processed_cex :
    (_handle_cache_subscribed so_key_fields ⟨[], []⟩
      ⟨1, 1, 1, [⟨999, [⟨5, ⟨0, 0, true⟩⟩]⟩, ⟨1, [⟨6, ⟨42, 9, true⟩⟩]⟩]⟩).events =
      [⟨.new, .CSOEconItem, ⟨6, ⟨42, 9, true⟩⟩⟩] ∧
    lookupA (_handle_cache_subscribed so_key_fields ⟨[], []⟩
      ⟨1, 1, 1, [⟨999, [⟨5, ⟨0, 0, true⟩⟩]⟩, ⟨1, [⟨6, ⟨42, 9, true⟩⟩]⟩]⟩).state.caches
      .CSOEconItem = some (.table [(42, ⟨6, ⟨42, 9, true⟩⟩)]) ∧
    (_handle_cache_subscribed so_key_fields ⟨[], []⟩
      ⟨1, 1, 1, [⟨999, [⟨5, ⟨0, 0, true⟩⟩]⟩, ⟨1, [⟨6, ⟨42, 9, true⟩⟩]⟩]⟩).err = false := by
  refine ⟨rfl, rfl, rfl⟩

theorem update_object_split (σ : Schema) (c : List (ESOType × Container)) (tid : Int)
    (od : Inst) :
    ∃ c' r, ∀ su, _update_object σ ⟨c, su⟩ tid od = (⟨c', su⟩, r) := by
  cases hp : _parse_object_data σ tid od with
  | none => exact ⟨c, .skip, fun su => by simp [_update_object, hp]⟩
  | some p =>
    obtain ⟨t, key, obj⟩ := p
    cases key with
    | none =>
      cases hl : lookupA c t with
      | none =>
        refine ⟨setA (setA c t (.table [])) t (.single obj), .ok t obj, fun su => ?_⟩
        simp [_update_object, hp, getContainer, hl]
      | some cont =>
        cases cont with
        | single i =>
          refine ⟨setA c t (.single ⟨i.ident, obj.content⟩), .ok t ⟨i.ident, obj.content⟩,
            fun su => ?_⟩
          simp [_update_object, hp, getContainer, hl]
        | table es =>
          refine ⟨setA c t (.single obj), .ok t obj, fun su => ?_⟩
          simp [_update_object, hp, getContainer, hl]
    | some k =>
      cases hl : lookupA c t with
      | none =>
        refine ⟨setA (setA c t (.table [])) t (.table (setA [] k obj)), .ok t obj,
          fun su => ?_⟩
        simp [_update_object, hp, getContainer, hl, lookupA]
      | some cont =>
        cases cont with
        | single i => exact ⟨c, .error, fun su => by simp [_update_object, hp, getContainer, hl]⟩
        | table es =>
          cases hk : lookupA es k with
          | none =>
            refine ⟨setA c t (.table (setA es k obj)), .ok t obj, fun su => ?_⟩
            simp [_update_object, hp, getContainer, hl, hk]
          | some i =>
            refine ⟨setA c t (.table (setA es k ⟨i.ident, obj.content⟩)),
              .ok t ⟨i.ident, obj.content⟩, fun su => ?_⟩
            simp [_update_object, hp, getContainer, hl, hk]

theorem applyGroupObjects_split (σ : Schema) (tid : Int) (ods : List Inst)
    (c : List (ESOType × Container)) :
    ∃ c' evs e, ∀ su, applyGroupObjects σ tid ods ⟨c, su⟩ = (⟨c', su⟩, evs, e) := by
  induction ods generalizing c with
  | nil => exact ⟨c, [], false, fun su => rfl⟩
  | cons od rest ih =>
    obtain ⟨c1, r, hu⟩ := update_object_split σ c tid od
    cases r with
    | skip => exact ⟨c1, [], false, fun su => by simp [applyGroupObjects, hu su]⟩
    | error => exact ⟨c1, [], true, fun su => by simp [applyGroupObjects, hu su]⟩
    | ok t obj =>
      obtain ⟨c2, evs2, e2, hrec⟩ := ih c1
      exact ⟨c2, ⟨.new, t, obj⟩ :: evs2, e2,
        fun su => by simp [applyGroupObjects, hu su, hrec su]⟩

theorem applyGroups_split (σ : Schema) (gs : List SOTypeGroup)
    (c : List (ESOType × Container)) :
    ∃ c' evs e, ∀ su, applyGroups σ gs ⟨c, su⟩ = (⟨c', su⟩, evs, e) := by
  induction gs generalizing c with
  | nil => exact ⟨c, [], false, fun su => rfl⟩
  | cons g gs ih =>
    obtain ⟨c1, evs1, e1, h1⟩ := applyGroupObjects_split σ g.type_id g.object_data c
    cases e1 with
    | true => exact ⟨c1, evs1, true, fun su => by simp [applyGroups, h1 su]⟩
    | false =>
      obtain ⟨c2, evs2, e2, h2⟩ := ih c1
      exact ⟨c2, evs1 ++ evs2, e2, fun su => by simp [applyGroups, h1 su, h2 su]⟩

theorem applyGroups_skip (σ : Schema) (g : SOTypeGroup)
    (hfail : ∀ od, _parse_object_data σ g.type_id od = none) :
    ∀ (gs1 gs2 : List SOTypeGroup) (s : SOCache),
      applyGroups σ (gs1 ++ g :: gs2) s = applyGroups σ (gs1 ++ gs2) s := by
  have hgroup : ∀ s : SOCache, applyGroupObjects σ g.type_id g.object_data s =
      (s, [], false) := by
    intro s
    cases hod : g.object_data with
    | nil => rfl
    | cons od rest =>
      have : _update_object σ s g.type_id od = (s, .skip) := by
        simp [_update_object, hfail od]
      simp [applyGroupObjects, this]
  intro gs1
  induction gs1 with
  | nil =>
    intro gs2 s
    show applyGroups σ (g :: gs2) s = applyGroups σ gs2 s
    simp [applyGroups, hgroup s]
  | cons h tt ih =>
    intro gs2 s
    show applyGroups σ (h :: (tt ++ g :: gs2)) s = applyGroups σ (h :: (tt ++ gs2)) s
    simp only [applyGroups]
    rw [ih]

/-- C3 (amended): a bundled object that fails to parse (unknown type id,
unresolvable proto, or no key fields — all type-level failures) causes the
rest of its own per-type group to be abandoned, but the remaining per-type
groups of the same notification are still processed: the handler's stored
objects, emitted events and error outcome are the same as if the failing
group were absent (only the subscription record still registers its type
id). -/
theorem cache_subscribed_group_failfast (σ : Schema) (s : SOCache)
    (ot oi v : Int) (gs1 gs2 : List SOTypeGroup) (g : SOTypeGroup)
    (hfail : ∀ od, _parse_object_data σ g.type_id od = none) :
    (_handle_cache_subscribed σ s ⟨ot, oi, v, gs1 ++ g :: gs2⟩).state.caches =
      (_handle_cache_subscribed σ s ⟨ot, oi, v, gs1 ++ gs2⟩).state.caches ∧
    (_handle_cache_subscribed σ s ⟨ot, oi, v, gs1 ++ g :: gs2⟩).events =
      (_handle_cache_subscribed σ s ⟨ot, oi, v, gs1 ++ gs2⟩).events ∧
    (_handle_cache_subscribed σ s ⟨ot, oi, v, gs1 ++ gs2⟩).err =
      (_handle_cache_subscribed σ s ⟨ot, oi, v, gs1 ++ g :: gs2⟩).err := by
  obtain ⟨c', evs, e, hsplit⟩ := applyGroups_split σ (gs1 ++ gs2) s.caches
  have hled : ∀ su, applyGroups σ (gs1 ++ g :: gs2) ⟨s.caches, su⟩ = (⟨c', su⟩, evs, e) := by
    intro su
    rw [applyGroups_skip σ g hfail gs1 gs2]
    exact hsplit su
  simp only [_handle_cache_subscribed]
  rw [hled, hsplit]
  exact ⟨rfl, rfl, rfl⟩

/-- Witness for C3 (amended): the failing group with type id 999 between no
other groups and one `CSOEconItem` group; the cache contents, events and
error flag agree with processing the item group alone. -/
theorem cache_subscribed_group_failfast_witness :
    (_handle_cache_subscribed so_key_fields ⟨[], []⟩
      ⟨1, 1, 1, [⟨999, [⟨5, ⟨0, 0, true⟩⟩]⟩, ⟨1, [⟨6, ⟨42, 9, true⟩⟩]⟩]⟩).state.caches =
      (_handle_cache_subscribed so_key_fields ⟨[], []⟩
        ⟨1, 1, 1, [⟨1, [⟨6, ⟨42, 9, true⟩⟩]⟩]⟩).state.caches ∧
    (_handle_cache_subscribed so_key_fields ⟨[], []⟩
      ⟨1, 1, 1, [⟨999, [⟨5, ⟨0, 0, true⟩⟩]⟩, ⟨1, [⟨6, ⟨42, 9, true⟩⟩]⟩]⟩).events =
      (_handle_cache_subscribed so_key_fields ⟨[], []⟩
        ⟨1, 1, 1, [⟨1, [⟨6, ⟨42, 9, true⟩⟩]⟩]⟩).events ∧
    (_handle_cache_subscribed so_key_fields ⟨[], []⟩
      ⟨1, 1, 1, [⟨1, [⟨6, ⟨42, 9, true⟩⟩]⟩]⟩).err =
      (_handle_cache_subscribed so_key_fields ⟨[], []⟩
        ⟨1, 1, 1, [⟨999, [⟨5, ⟨0, 0, true⟩⟩]⟩, ⟨1, [⟨6, ⟨42, 9, true⟩⟩]⟩]⟩).err :=
  cache_subscribed_group_failfast so_key_fields ⟨[], []⟩ 1 1 1 []
    [⟨1, [⟨6, ⟨42, 9, true⟩⟩]⟩] ⟨999, [⟨5, ⟨0, 0, true⟩⟩]⟩ (fun _ => rfl)

end csgo
